import Mathlib

/-!
A shallow embedding of the JetStream consumer client core: the ordered
consumer sequence check, the fetch iterator dispatch logic, the publish
retry loop and ack parsing, the idle heartbeat miss handler, the pull and
fetch request validation, and the consumer option processing used by
pullSubscribe. Each definition transcribes one function (or one phase of a
function) of the client source; theorems establish the documented
behaviour of those functions.
-/

namespace NextNats

/-- Milliseconds to nanoseconds, as the nats-core helper nanos. -/
def nanos (ms : Nat) : Nat := ms * 1000000

/-- JS truthiness of an optional number: undefined and 0 are falsy. -/
def jsTruthyOptNat : Option Nat → Bool
  | Option.none => false
  | some n => n != 0

/-- JS truthiness of an optional string: undefined and the empty string are falsy. -/
def jsTruthyStr : Option String → Bool
  | Option.none => false
  | some s => s != ""

/-- The ack policy enumeration of the consumer config. -/
inductive AckPolicy
  | notSet
  | none
  | all
  | explicit
deriving DecidableEq

/-- The per subscription ordered consumer sequence record
`ordered_consumer_sequence = \x7b stream_seq, delivery_seq \x7d`. -/
structure OrderedConsumerSequence where
  stream_seq : Nat
  delivery_seq : Nat
deriving DecidableEq

/-- Outcome of the ordered consumer check on one data message: the sequence
record after the check, whether the message is ingested, and, when a consumer
recreate is triggered, the stream sequence the recreate starts at. -/
structure OrderedCheckResult where
  seqs : OrderedConsumerSequence
  ingest : Bool
  resetAt : Option Nat
deriving DecidableEq

/-- JetStreamSubscriptionImpl._checkOrderedConsumer: compares the delivery
sequence of the incoming message with the recorded delivery_seq + 1; on a
match it updates both recorded sequences and ingests the message, otherwise
it calls _resetOrderedConsumer at the recorded stream_seq + 1 and drops the
message. -/
def checkOrderedConsumer (ordered : OrderedConsumerSequence) (sseq dseq : Nat) :
    OrderedCheckResult :=
  if dseq ≠ ordered.delivery_seq + 1 then
    { seqs := ordered, ingest := false, resetAt := some (ordered.stream_seq + 1) }
  else
    { seqs := { stream_seq := sseq, delivery_seq := dseq }, ingest := true,
      resetAt := Option.none }

/-- The received count and byte count a fetch tracks. -/
structure FetchProgress where
  received : Nat
  receivedBytes : Nat
deriving DecidableEq

/-- Outcome of one call of the fetch dispatchedFn: the updated counters and
whether the iterator was stopped. -/
structure DispatchOutcome where
  progress : FetchProgress
  stop : Bool
deriving DecidableEq

/-- The dispatchedFn installed by JetStreamClientImpl.fetch, for a non null
yielded message. maxBytes is opts.max_bytes ?? 0 (so trackBytes is
0 < maxBytes), wants is args.batch, timerActive says whether the expiration
timer is currently set, qiPending is qi.getPending() and mPending is
m.info.pending. When the timer is active and mPending is 0 the function
returns early and leaves the close to the expiration. -/
def fetchDispatchedFn (maxBytes wants : Nat) (timerActive : Bool) (qiPending : Nat)
    (p : FetchProgress) (mPending mDataLen : Nat) : DispatchOutcome :=
  let receivedBytes := if 0 < maxBytes then p.receivedBytes + mDataLen else p.receivedBytes
  let received := p.received + 1
  if timerActive = true ∧ mPending = 0 then
    { progress := { received := received, receivedBytes := receivedBytes }, stop := false }
  else if (qiPending = 1 ∧ mPending = 0) ∨ wants = received ∨
      (0 < maxBytes ∧ maxBytes ≤ receivedBytes) then
    { progress := { received := received, receivedBytes := receivedBytes }, stop := true }
  else
    { progress := { received := received, receivedBytes := receivedBytes }, stop := false }

/-- What one wire request of the publish retry loop came back with: a reply,
or a NatsError whose code is the given numeric status. -/
inductive ReqOutcome
  | ok
  | err (code : Nat)
deriving DecidableEq

/-- A run of the publish retry loop: how many wire requests were emitted, the
delays slept between attempts, and the final outcome (the error code that
propagated, or success). -/
structure PublishTrace where
  attempts : Nat
  delays : List Nat
  result : Except Nat Unit

/-- JS `x || d` for an optional numeric option: undefined and 0 fall back to
the default. -/
def jsOrDefault (o : Option Nat) (d : Nat) : Nat :=
  match o with
  | Option.none => d
  | some 0 => d
  | some n => n

/-- The `for (let i = 0; i < retries; i++)` body of JetStreamClientImpl.publish:
attempt the request; on success break; on failure retry only when the code is
503 and i + 1 < retries, sleeping retry_delay first; otherwise rethrow.
`oracle i` is what the i-th wire request comes back with; `rem` is the number
of loop iterations left (retries - i), so the fuel-exhausted branch is never
reached from the entry point. -/
def publishLoopAux (oracle : Nat → ReqOutcome) (retries retryDelay : Nat) :
    Nat → Nat → PublishTrace
  | i, 0 => { attempts := i, delays := [], result := Except.error 0 }
  | i, rem + 1 =>
    match oracle i with
    | ReqOutcome.ok => { attempts := i + 1, delays := [], result := Except.ok () }
    | ReqOutcome.err c =>
      if c = 503 ∧ i + 1 < retries then
        let t := publishLoopAux oracle retries retryDelay (i + 1) rem
        { attempts := t.attempts, delays := retryDelay :: t.delays, result := t.result }
      else
        { attempts := i + 1, delays := [], result := Except.error c }

/-- The retry portion of JetStreamClientImpl.publish: retries and retry_delay
are read from the options with `retries || 1` and `retry_delay || 250`, then
the loop runs from attempt 0. -/
def publishModel (oracle : Nat → ReqOutcome) (optRetries optRetryDelay : Option Nat) :
    PublishTrace :=
  let retries := jsOrDefault optRetries 1
  let retryDelay := jsOrDefault optRetryDelay 250
  publishLoopAux oracle retries retryDelay 0 retries

/-- What the missed heartbeat handler does: inject a synthetic status frame
through the delivery callback, recreate the ordered consumer at the given
start sequence, or nothing. -/
inductive HbMissAction
  | inject (code : Nat) (missed : Nat)
  | recreate (startSeq : Nat)
  | nothing
deriving DecidableEq

/-- The action taken plus the boolean the handler returns to the monitor
(false stops the monitor). -/
structure HbMissResult where
  action : HbMissAction
  keepMonitor : Bool
deriving DecidableEq

/-- The handler installed by JetStreamSubscriptionImpl._setupHbMonitoring.
ordered is info?.ordered, connected is js.nc.protocol.connected, streamSeq is
ordered_consumer_sequence?.stream_seq || 0, noIterator is sub.noIterator and
v the miss count. Non ordered: build a 409 IdleHeartbeatMissed frame with the
miss count and push it through sub.callback, then return !noIterator.
Ordered and disconnected: do nothing and return false. Ordered and connected:
call _resetOrderedConsumer(streamSeq + 1) and return false. -/
def hbMissHandler (ordered connected : Bool) (streamSeq : Nat) (noIterator : Bool)
    (v : Nat) : HbMissResult :=
  if ¬ ordered then
    { action := HbMissAction.inject 409 v, keepMonitor := !noIterator }
  else if ¬ connected then
    { action := HbMissAction.nothing, keepMonitor := false }
  else
    { action := HbMissAction.recreate (streamSeq + 1), keepMonitor := false }

/-- The JS values that can appear as a filter_subjects field: undefined, a
boolean (the result of a ! expression) or an array of subjects. -/
inductive JSVal
  | undef
  | boolean (b : Bool)
  | strArr (xs : List String)
deriving DecidableEq

/-- JS Array.isArray. -/
def jsIsArray : JSVal → Bool
  | JSVal.strArr _ => true
  | _ => false

/-- JS truthiness: undefined is falsy, a boolean is itself, an array is truthy. -/
def jsTruthy : JSVal → Bool
  | JSVal.undef => false
  | JSVal.boolean b => b
  | JSVal.strArr _ => true

/-- JS `a && b`: a when a is falsy, b otherwise. -/
def jsAnd (a b : JSVal) : JSVal := if jsTruthy a then b else a

/-- The filter_subjects honored test of JetStreamClientImpl._maybeCreateConsumer
with the parenthesization of the source: the whole conjunction
`jsi.config.filter_subjects && !Array.isArray(ci.config.filter_subjects)` is
the argument of the outer Array.isArray call. userFS is the filter_subjects
the user configured and serverFS the one in the ConsumerInfo the server
returned. The multiple filter subjects error is thrown exactly when this
returns true. -/
def multiFilterNotHonoredCheck (userFS serverFS : JSVal) : Bool :=
  jsIsArray (jsAnd userFS (JSVal.boolean (!jsIsArray serverFS)))

/-- The errors of the request building and ack parsing paths modelled here. -/
inductive JsClientError
  | maxBytesUnsupported
  | idleHeartbeatRequiresExpires
  | expiresMustBeGreaterThanIdleHeartbeat
  | expiresOrNoWaitRequired
  | invalidAck
deriving DecidableEq

/-- The body of a pull request as built by fetch and by pull:
`\x7b batch, no_wait, max_bytes?, expires?, idle_heartbeat? \x7d`, the optional
fields in nanoseconds. -/
structure PullRequestArgs where
  batch : Nat
  no_wait : Bool
  max_bytes : Option Nat
  expires : Option Nat
  idle_heartbeat : Option Nat
deriving DecidableEq

/-- JetStreamPullSubscriptionImpl.pull, up to and including its fail fast
validation; the returned args are what gets published to
CONSUMER.MSG.NEXT, and nothing is published on an error. A numeric option
that is 0 stands for absent or non positive (the source guards each with
`opts.x && opts.x > 0`). -/
def pullBuildArgs (optsBatch optsMaxBytes optsExpires optsIdleHeartbeat : Nat)
    (optsNoWait maxBytesFeatureOk : Bool) : Except JsClientError PullRequestArgs :=
  let batch := if optsBatch = 0 then 1 else optsBatch
  let no_wait := optsNoWait
  if 0 < optsMaxBytes ∧ maxBytesFeatureOk = false then
    Except.error JsClientError.maxBytesUnsupported
  else
    let max_bytes := if 0 < optsMaxBytes then some optsMaxBytes else Option.none
    let expires := if 0 < optsExpires then optsExpires else 0
    let argExpires := if 0 < optsExpires then some (nanos optsExpires) else Option.none
    let hb := if 0 < optsIdleHeartbeat then optsIdleHeartbeat else 0
    let argHb := if 0 < optsIdleHeartbeat then some (nanos optsIdleHeartbeat) else Option.none
    if hb ≠ 0 ∧ expires = 0 then
      Except.error JsClientError.idleHeartbeatRequiresExpires
    else if hb > expires then
      Except.error JsClientError.expiresMustBeGreaterThanIdleHeartbeat
    else
      Except.ok { batch := batch, no_wait := no_wait, max_bytes := max_bytes,
                  expires := argExpires, idle_heartbeat := argHb }

/-- A publish ack as returned to the caller. -/
structure PubAck where
  stream : String
  seq : Nat
  duplicate : Bool
deriving DecidableEq

/-- The ack parsing tail of JetStreamClientImpl.publish: the reply is parsed
into \x7b stream, seq, duplicate? \x7d; an empty stream raises
JetStreamInvalidAck, and `pa.duplicate = pa.duplicate ? pa.duplicate : false`
normalizes a missing or falsy duplicate to false. -/
def processPubAck (stream : String) (seq : Nat) (duplicate : Option Bool) :
    Except JsClientError PubAck :=
  if stream = "" then
    Except.error JsClientError.invalidAck
  else
    Except.ok { stream := stream, seq := seq,
                duplicate := match duplicate with | some true => true | _ => false }

/-- The argument building prefix of JetStreamClientImpl.fetch, in source
order: batch default, max_bytes feature gate, no_wait, the branch that zeroes
args.expires when no_wait is set (evaluated while args.expires is still
unset), the expires assignment, the expires or no_wait requirement, and the
idle_heartbeat assignment (quadrupled under the delay_heartbeat test option).
The returned args are the published pull request body; subscribing and
publishing happen only after this returns without an error. -/
def fetchBuildArgs (optsBatch optsMaxBytes optsExpires optsIdleHeartbeat : Nat)
    (optsNoWait delayHeartbeat maxBytesFeatureOk : Bool) :
    Except JsClientError PullRequestArgs :=
  let batch := if optsBatch = 0 then 1 else optsBatch
  let trackBytes := 0 < optsMaxBytes
  if trackBytes ∧ maxBytesFeatureOk = false then
    Except.error JsClientError.maxBytesUnsupported
  else
    let max_bytes := if trackBytes then some optsMaxBytes else Option.none
    let no_wait := optsNoWait
    let argExpires : Option Nat := Option.none
    let argExpires := if no_wait = true ∧ jsTruthyOptNat argExpires = true then some 0
      else argExpires
    let expires := optsExpires
    let argExpires := if expires ≠ 0 then some (nanos expires) else argExpires
    if expires = 0 ∧ no_wait = false then
      Except.error JsClientError.expiresOrNoWaitRequired
    else
      let hb := optsIdleHeartbeat
      let argHb := if hb ≠ 0 then some (nanos (if delayHeartbeat then hb * 4 else hb))
        else Option.none
      Except.ok { batch := batch, no_wait := no_wait, max_bytes := max_bytes,
                  expires := argExpires, idle_heartbeat := argHb }

/-- The consumer option fields processed by _processOptions that the
pullSubscribe path reads. -/
structure ConsumerOptsModel where
  ordered : Bool
  ack_policy : AckPolicy
  durable_name : Option String
  deliver_subject : Option String
  deliver_group : Option String
  max_deliver : Option Nat
deriving DecidableEq

/-- The fields of a server returned ConsumerInfo that _processOptions reads
when a durable of the same name already exists. -/
structure AttachedConsumerInfo where
  ack_policy : AckPolicy
  filter_subject : Option String
  deliver_group : Option String
  deliver_subject : Option String
  push_bound : Bool
deriving DecidableEq

/-- The processed subscription info fields that pullSubscribe inspects. -/
structure ProcessedOpts where
  ordered : Bool
  ack_policy : AckPolicy
  deliver_subject : Option String
  attached : Bool
deriving DecidableEq

/-- The errors _processOptions can raise on the modelled paths. -/
inductive ProcessOptsError
  | orderedAckPolicy
  | orderedDurableName
  | orderedDeliverSubject
  | orderedMaxDeliver
  | orderedDeliverGroup
  | subjectDoesNotMatchConsumer
  | duplicateSubscription
  | durableRequiresQueueGroup
deriving DecidableEq

/-- The ordered consumer branch of _processOptions: validate that ack_policy
is NotSet or None, that durable_name, deliver_subject and deliver_group are
unset and max_deliver is at most 1, then synthesize the ordered config (fresh
deliver inbox, ack_policy None, max_deliver 1). -/
def processOrderedValidation (freshInbox : String) (o : ConsumerOptsModel) :
    Except ProcessOptsError ConsumerOptsModel :=
  if o.ordered then
    if o.ack_policy ≠ AckPolicy.notSet ∧ o.ack_policy ≠ AckPolicy.none then
      Except.error ProcessOptsError.orderedAckPolicy
    else if jsTruthyStr o.durable_name then
      Except.error ProcessOptsError.orderedDurableName
    else if jsTruthyStr o.deliver_subject then
      Except.error ProcessOptsError.orderedDeliverSubject
    else if (match o.max_deliver with | some m => decide (1 < m) | Option.none => false) then
      Except.error ProcessOptsError.orderedMaxDeliver
    else if jsTruthyStr o.deliver_group then
      Except.error ProcessOptsError.orderedDeliverGroup
    else
      Except.ok { o with
        deliver_subject := some freshInbox,
        ack_policy := AckPolicy.none,
        max_deliver := some 1 }
  else
    Except.ok o

/-- JetStreamClientImpl._processOptions restricted to the fields above: the
ordered branch, the NotSet to All ack default, and the durable attach step.
serverInfo is the reply of the consumer info RPC issued when durable_name is
set; Option.none stands for its 404 (the consumer does not exist yet), in
which case processing continues unattached. -/
def processOptionsModel (subject freshInbox : String) (o : ConsumerOptsModel)
    (serverInfo : Option AttachedConsumerInfo) :
    Except ProcessOptsError ProcessedOpts :=
  match processOrderedValidation freshInbox o with
  | Except.error e => Except.error e
  | Except.ok o1 =>
    let o2 := if o1.ack_policy = AckPolicy.notSet then
        { o1 with ack_policy := AckPolicy.all }
      else o1
    if jsTruthyStr o2.durable_name then
      match serverInfo with
      | Option.none =>
        Except.ok { ordered := o2.ordered, ack_policy := o2.ack_policy,
                    deliver_subject := o2.deliver_subject, attached := false }
      | some info =>
        if jsTruthyStr info.filter_subject = true ∧ info.filter_subject ≠ some subject then
          Except.error ProcessOptsError.subjectDoesNotMatchConsumer
        else
          let qn := o2.deliver_group.getD ""
          if qn = "" ∧ info.push_bound = true then
            Except.error ProcessOptsError.duplicateSubscription
          else
            let rqn := info.deliver_group.getD ""
            if qn ≠ rqn then
              Except.error ProcessOptsError.durableRequiresQueueGroup
            else
              Except.ok { ordered := o2.ordered, ack_policy := info.ack_policy,
                          deliver_subject := info.deliver_subject, attached := true }
    else
      Except.ok { ordered := o2.ordered, ack_policy := o2.ack_policy,
                  deliver_subject := o2.deliver_subject, attached := false }

/-- The errors the pullSubscribe front checks raise. -/
inductive PullSubscribeError
  | pullSubscribersCannotBeOrdered
  | deliverSubjectNotAllowed
  | ackPolicyMustBeExplicit
deriving DecidableEq

/-- The validation JetStreamClientImpl.pullSubscribe runs on the processed
options, in source order: reject ordered, reject a set deliver_subject, and
reject an ack policy of None or All with the explicit ack requirement. -/
def pullSubscribeCheck (cso : ProcessedOpts) : Except PullSubscribeError Unit :=
  if cso.ordered then
    Except.error PullSubscribeError.pullSubscribersCannotBeOrdered
  else if jsTruthyStr cso.deliver_subject then
    Except.error PullSubscribeError.deliverSubjectNotAllowed
  else if cso.ack_policy = AckPolicy.none ∨ cso.ack_policy = AckPolicy.all then
    Except.error PullSubscribeError.ackPolicyMustBeExplicit
  else
    Except.ok ()

/-- pullSubscribe up to the consumer creation step: process the options, then
run the pull specific checks. -/
def pullSubscribeModel (subject freshInbox : String) (o : ConsumerOptsModel)
    (serverInfo : Option AttachedConsumerInfo) :
    Except (ProcessOptsError ⊕ PullSubscribeError) ProcessedOpts :=
  match processOptionsModel subject freshInbox o serverInfo with
  | Except.error e => Except.error (Sum.inl e)
  | Except.ok cso =>
    match pullSubscribeCheck cso with
    | Except.error e => Except.error (Sum.inr e)
    | Except.ok _ => Except.ok cso

/-- Claim C1: for every message run through the ordered consumer sequence
check, if the delivery sequence equals the recorded delivery_seq + 1 then
both recorded sequences are updated to the message sequences and the message
is ingested; otherwise a recreate at the recorded stream_seq + 1 is issued
and the message is not ingested; hence the accepted delivery sequence
increases strictly by one. -/
theorem checkOrderedConsumer_spec (ordered : OrderedConsumerSequence) (sseq dseq : Nat) :
    (dseq = ordered.delivery_seq + 1 →
      checkOrderedConsumer ordered sseq dseq =
        { seqs := { stream_seq := sseq, delivery_seq := dseq }, ingest := true,
          resetAt := Option.none }) ∧
    (dseq ≠ ordered.delivery_seq + 1 →
      checkOrderedConsumer ordered sseq dseq =
        { seqs := ordered, ingest := false, resetAt := some (ordered.stream_seq + 1) }) ∧
    ((checkOrderedConsumer ordered sseq dseq).ingest = true →
      (checkOrderedConsumer ordered sseq dseq).seqs.delivery_seq =
        ordered.delivery_seq + 1) := by
  refine ⟨fun h => ?_, fun h => ?_, fun h => ?_⟩
  · simp [checkOrderedConsumer, h]
  · simp [checkOrderedConsumer, h]
  · by_cases hd : dseq = ordered.delivery_seq + 1
    · simp [checkOrderedConsumer, hd]
    · simp [checkOrderedConsumer, hd] at h

/-- Claim C2, counterexample to the claim as stated: with an active
expiration timer, a batch of 1, one message pending in the iterator and a
yielded message whose info.pending is 0, the claimed stop condition (one
pending and pending 0, or received equals batch) holds, yet the dispatchedFn
does not stop the iterator (it defers to the expiration timer). -/
theorem fetchDispatchedFn_claim_false :
    ¬ (((fetchDispatchedFn 0 1 true 1 { received := 0, receivedBytes := 0 } 0 0).stop = true) ↔
      (((1 : Nat) = 1 ∧ (0 : Nat) = 0) ∨ (1 : Nat) = 0 + 1 ∨
        ((0 : Nat) < 0 ∧ (0 : Nat) ≤ 0 + 0))) := by
  decide

/-- Claim C2, amended: the dispatchedFn stops the iterator exactly when no
expiration timer is active with the yielded message reporting pending 0, and
one of the following holds: (a) one message remains pending in the iterator
and the message reports pending 0, (b) the received count equals the
requested batch, or (c) max_bytes is positive and the accumulated received
bytes reach it. -/
theorem fetchDispatchedFn_stop_iff (maxBytes wants : Nat) (timerActive : Bool)
    (qiPending : Nat) (p : FetchProgress) (mPending mDataLen : Nat) :
    (fetchDispatchedFn maxBytes wants timerActive qiPending p mPending mDataLen).stop = true ↔
      (¬ (timerActive = true ∧ mPending = 0) ∧
        ((qiPending = 1 ∧ mPending = 0) ∨ wants = p.received + 1 ∨
          (0 < maxBytes ∧ maxBytes ≤ p.receivedBytes + mDataLen))) := by
  by_cases ht : timerActive = true ∧ mPending = 0
  · simp [fetchDispatchedFn, ht]
  · by_cases hmb : 0 < maxBytes
    · simp [fetchDispatchedFn, ht, hmb]
      split <;> simp_all
    · have hz : maxBytes = 0 := by omega
      subst hz
      simp [fetchDispatchedFn, ht]
      split <;> simp_all

/-- Claim C4: on missed heartbeats, a non ordered subscription gets a
synthetic 409 frame with the miss count injected into its delivery pipeline;
an ordered subscription with the connection up gets no error and a silent
recreate at the recorded stream_seq + 1; an ordered subscription with the
connection down gets nothing. -/
theorem hbMissHandler_spec (ordered connected : Bool) (streamSeq : Nat)
    (noIterator : Bool) (v : Nat) :
    (ordered = false →
      hbMissHandler ordered connected streamSeq noIterator v =
        { action := HbMissAction.inject 409 v, keepMonitor := !noIterator }) ∧
    (ordered = true → connected = true →
      hbMissHandler ordered connected streamSeq noIterator v =
        { action := HbMissAction.recreate (streamSeq + 1), keepMonitor := false }) ∧
    (ordered = true → connected = false →
      hbMissHandler ordered connected streamSeq noIterator v =
        { action := HbMissAction.nothing, keepMonitor := false }) := by
  refine ⟨fun h => ?_, fun h hc => ?_, fun h hc => ?_⟩ <;>
    simp [hbMissHandler, h, *]

/-- Claim C5: the multiple filter subjects guard of _maybeCreateConsumer can
never fire, because the source parenthesizes the conjunction inside the outer
Array.isArray call, whose argument is then always a boolean or undefined; in
particular it does not fire in the intended case of a user supplied
filter_subjects array that the server did not echo as an array, although the
intended condition is true there. -/
theorem multiFilterNotHonoredCheck_never_fires :
    (∀ u s : JSVal, multiFilterNotHonoredCheck u s = false) ∧
    multiFilterNotHonoredCheck (JSVal.strArr ["a", "b"]) JSVal.undef = false ∧
    jsIsArray (JSVal.strArr ["a", "b"]) = true ∧ jsIsArray JSVal.undef = false := by
  refine ⟨fun u s => ?_, rfl, rfl, rfl⟩
  cases u with
  | undef => rfl
  | boolean b => cases b <;> rfl
  | strArr xs => rfl

/-- The JS default `x || d` is positive whenever the default is. -/
theorem jsOrDefault_pos (o : Option Nat) (d : Nat) (hd : 0 < d) : 0 < jsOrDefault o d := by
  cases o with
  | none => simpa [jsOrDefault]
  | some n => cases n with
    | zero => simpa [jsOrDefault]
    | succ m => simp [jsOrDefault]

/-- One run of the publish retry loop from attempt i with rem iterations
left (rem = retries - i): the attempt count moves past i and stays within
retries, every non final attempt failed with 503, one retry delay is slept
per extra attempt, and the outcome is that of the last attempt made, a 503
propagating only from the final allowed attempt. -/
theorem publishLoopAux_spec (oracle : Nat → ReqOutcome) (retries d : Nat) :
    ∀ rem i, i + rem = retries → 0 < rem →
      i < (publishLoopAux oracle retries d i rem).attempts ∧
      (publishLoopAux oracle retries d i rem).attempts ≤ retries ∧
      (∀ j, i ≤ j → j + 1 < (publishLoopAux oracle retries d i rem).attempts →
        oracle j = ReqOutcome.err 503) ∧
      (publishLoopAux oracle retries d i rem).delays =
        List.replicate ((publishLoopAux oracle retries d i rem).attempts - (i + 1)) d ∧
      (∀ c, (publishLoopAux oracle retries d i rem).result = Except.error c →
        oracle ((publishLoopAux oracle retries d i rem).attempts - 1) = ReqOutcome.err c ∧
        (c = 503 → (publishLoopAux oracle retries d i rem).attempts = retries)) ∧
      ((publishLoopAux oracle retries d i rem).result = Except.ok () →
        oracle ((publishLoopAux oracle retries d i rem).attempts - 1) = ReqOutcome.ok) := by
  intro rem
  induction rem with
  | zero =>
    intro i _ h0
    exact absurd h0 (lt_irrefl 0)
  | succ rem ih =>
    intro i hsum _
    cases horacle : oracle i with
    | ok =>
      simp only [publishLoopAux, horacle]
      refine ⟨Nat.lt_succ_self i, by omega, ?_, by simp, ?_, ?_⟩
      · intro j hij hj
        exact absurd hj (by omega)
      · intro c hc
        exact Except.noConfusion hc
      · intro _
        simpa using horacle
    | err c =>
      by_cases hretry : c = 503 ∧ i + 1 < retries
      · obtain ⟨h1, h2, h3, h4, h5, h6⟩ := ih (i + 1) (by omega) (by omega)
        simp only [publishLoopAux, horacle]
        rw [if_pos hretry]
        refine ⟨?_, h2, ?_, ?_, h5, h6⟩
        · show i < (publishLoopAux oracle retries d (i + 1) rem).attempts
          omega
        · intro j hij hj
          rcases Nat.eq_or_lt_of_le hij with heq | hlt
          · rw [← heq, horacle, hretry.1]
          · exact h3 j (by omega) hj
        · show d :: (publishLoopAux oracle retries d (i + 1) rem).delays =
            List.replicate ((publishLoopAux oracle retries d (i + 1) rem).attempts - (i + 1)) d
          have hcut : (publishLoopAux oracle retries d (i + 1) rem).attempts - (i + 1) =
              ((publishLoopAux oracle retries d (i + 1) rem).attempts - (i + 1 + 1)) + 1 := by
            omega
          rw [hcut, List.replicate_succ, h4]
      · simp only [publishLoopAux, horacle]
        rw [if_neg hretry]
        refine ⟨Nat.lt_succ_self i, ?_, ?_, by simp, ?_, ?_⟩
        · show i + 1 ≤ retries
          omega
        · intro j hij hj
          exact absurd (show j + 1 < i + 1 from hj) (by omega)
        · intro c' hc'
          have hcc : c = c' := by
            injection hc'
          subst hcc
          refine ⟨by simpa using horacle, fun h503 => ?_⟩
          have hnlt : ¬ (i + 1 < retries) := fun hlt => hretry ⟨h503, hlt⟩
          show i + 1 = retries
          omega
        · intro hok
          exact Except.noConfusion hok

/-- Claim C3: the publish retry loop emits at most `retries || 1` wire
requests; a request is re-attempted only after a 503 with attempts
remaining, with a retry_delay sleep between consecutive attempts; a non 503
failure, or a 503 on the final attempt, propagates at once (the loop ends at
the attempt whose outcome it returns, so a 503 can only propagate after the
allowed attempts are exhausted). -/
theorem publish_retry_spec (oracle : Nat → ReqOutcome) (optRetries optRetryDelay : Option Nat) :
    1 ≤ (publishModel oracle optRetries optRetryDelay).attempts ∧
    (publishModel oracle optRetries optRetryDelay).attempts ≤ jsOrDefault optRetries 1 ∧
    (∀ j, j + 1 < (publishModel oracle optRetries optRetryDelay).attempts →
      oracle j = ReqOutcome.err 503) ∧
    (publishModel oracle optRetries optRetryDelay).delays =
      List.replicate ((publishModel oracle optRetries optRetryDelay).attempts - 1)
        (jsOrDefault optRetryDelay 250) ∧
    (∀ c, (publishModel oracle optRetries optRetryDelay).result = Except.error c →
      oracle ((publishModel oracle optRetries optRetryDelay).attempts - 1) =
        ReqOutcome.err c ∧
      (c = 503 →
        (publishModel oracle optRetries optRetryDelay).attempts = jsOrDefault optRetries 1)) ∧
    ((publishModel oracle optRetries optRetryDelay).result = Except.ok () →
      oracle ((publishModel oracle optRetries optRetryDelay).attempts - 1) =
        ReqOutcome.ok) := by
  have hm : publishModel oracle optRetries optRetryDelay =
      publishLoopAux oracle (jsOrDefault optRetries 1) (jsOrDefault optRetryDelay 250) 0
        (jsOrDefault optRetries 1) := rfl
  obtain ⟨h1, h2, h3, h4, h5, h6⟩ :=
    publishLoopAux_spec oracle (jsOrDefault optRetries 1) (jsOrDefault optRetryDelay 250)
      (jsOrDefault optRetries 1) 0 (by omega) (jsOrDefault_pos optRetries 1 (by omega))
  rw [hm]
  exact ⟨h1, h2, fun j hj => h3 j (Nat.zero_le j) hj, by simpa using h4, h5, h6⟩

/-- Claim C6, counterexample to the claim as stated: with idle_heartbeat and
expires both 1000 the claimed precondition `expires > idle_heartbeat` fails,
yet pull does not fail fast: the guard in the source is
`hb > expires`, which admits equality, so the request is built and
published. -/
theorem pullBuildArgs_claim_counterexample :
    (0 : Nat) < 1000 ∧ ¬ ((1000 : Nat) > 1000) ∧
    pullBuildArgs 0 0 1000 1000 false true =
      Except.ok { batch := 1, no_wait := false, max_bytes := Option.none,
                  expires := some 1000000000, idle_heartbeat := some 1000000000 } := by
  refine ⟨by decide, by decide, rfl⟩

/-- Claim C6, amended: for a pull with idle_heartbeat > 0 (and the max_bytes
feature gate passing), the call fails fast before publishing exactly when
expires < idle_heartbeat (equivalently, it proceeds exactly when
expires is at least idle_heartbeat; expires strictly greater is not
required, equality is accepted). -/
theorem pullBuildArgs_ok_iff (optsBatch optsMaxBytes optsExpires optsIdleHeartbeat : Nat)
    (optsNoWait maxBytesFeatureOk : Bool)
    (hmb : optsMaxBytes = 0 ∨ maxBytesFeatureOk = true)
    (hhb : 0 < optsIdleHeartbeat) :
    (∃ a, pullBuildArgs optsBatch optsMaxBytes optsExpires optsIdleHeartbeat optsNoWait
        maxBytesFeatureOk = Except.ok a) ↔
      optsIdleHeartbeat ≤ optsExpires := by
  have hmb2 : ¬ (0 < optsMaxBytes ∧ maxBytesFeatureOk = false) := by
    rcases hmb with h | h
    · rintro ⟨hlt, -⟩
      omega
    · rintro ⟨-, hf⟩
      rw [h] at hf
      cases hf
  have hbne : optsIdleHeartbeat ≠ 0 := by omega
  by_cases he : 0 < optsExpires
  · have hene : optsExpires ≠ 0 := by omega
    by_cases hle : optsIdleHeartbeat ≤ optsExpires
    · have hngt : ¬ (optsIdleHeartbeat > optsExpires) := by omega
      simp [pullBuildArgs, hmb2, he, hle, hhb, hbne, hene, hngt]
    · have hgt : optsIdleHeartbeat > optsExpires := by omega
      simp [pullBuildArgs, hmb2, he, hle, hhb, hbne, hene, hgt]
  · have hez : optsExpires = 0 := by omega
    subst hez
    simp [pullBuildArgs, hmb2, hhb, hbne]

/-- Claim C6, witness for the amended theorem at expires 5 and
idle_heartbeat 3. -/
theorem pullBuildArgs_ok_iff_witness :
    ∃ a, pullBuildArgs 0 0 5 3 false true = Except.ok a :=
  (pullBuildArgs_ok_iff 0 0 5 3 false true (Or.inl rfl) (by decide)).mpr (by decide)

/-- Claim C7: the parsed publish ack fails with InvalidAck exactly on an
empty stream name; otherwise the ack keeps the parsed stream and sequence,
and duplicate is true exactly when the reply carried a true duplicate flag
(a missing or false flag is normalized to false). -/
theorem processPubAck_spec (stream : String) (seq : Nat) (dup : Option Bool) :
    (stream = "" → processPubAck stream seq dup = Except.error JsClientError.invalidAck) ∧
    (stream ≠ "" → ∃ pa, processPubAck stream seq dup = Except.ok pa ∧
      pa.stream = stream ∧ pa.seq = seq ∧ (pa.duplicate = true ↔ dup = some true)) := by
  refine ⟨fun h => by simp [processPubAck, h], fun h => ?_⟩
  refine ⟨{ stream := stream, seq := seq,
            duplicate := match dup with | some true => true | _ => false },
    by simp [processPubAck, h], rfl, rfl, ?_⟩
  match dup with
  | Option.none => simp
  | some true => simp
  | some false => simp

/-- Claim C7, witness: a reply with a non empty stream and no duplicate flag
yields an ack with duplicate false. -/
theorem processPubAck_spec_witness :
    ∃ pa, processPubAck "S" 7 Option.none = Except.ok pa ∧
      pa.stream = "S" ∧ pa.seq = 7 ∧ (pa.duplicate = true ↔ Option.none = some true) :=
  (processPubAck_spec "S" 7 Option.none).2 (by decide)

/-- Claim C8: a fetch whose options set neither no_wait nor a positive
expires fails with the expires or no_wait requirement before any subscribe
or publish happens (the failure is raised while building the request
arguments; the max_bytes feature gate is assumed to pass, it being the only
earlier failure in the argument building). -/
theorem fetchBuildArgs_requires_expires_or_no_wait
    (optsBatch optsMaxBytes optsIdleHeartbeat : Nat)
    (delayHeartbeat maxBytesFeatureOk : Bool)
    (hmb : optsMaxBytes = 0 ∨ maxBytesFeatureOk = true) :
    fetchBuildArgs optsBatch optsMaxBytes 0 optsIdleHeartbeat false delayHeartbeat
      maxBytesFeatureOk = Except.error JsClientError.expiresOrNoWaitRequired := by
  have hmb2 : ¬ (0 < optsMaxBytes ∧ maxBytesFeatureOk = false) := by
    rcases hmb with h | h
    · rintro ⟨hlt, -⟩
      omega
    · rintro ⟨-, hf⟩
      rw [h] at hf
      cases hf
  simp [fetchBuildArgs, hmb2]

/-- Claim C8, witness at batch 1 with every other numeric option absent. -/
theorem fetchBuildArgs_requires_expires_or_no_wait_witness :
    fetchBuildArgs 1 0 0 0 false false true =
      Except.error JsClientError.expiresOrNoWaitRequired :=
  fetchBuildArgs_requires_expires_or_no_wait 1 0 0 false true (Or.inl rfl)

/-- Claim C9: when no_wait is set together with a positive expires, the
published pull request carries no_wait true and a nonzero expires equal to
nanos(opts.expires): the branch that zeroes args.expires runs while
args.expires is still unset (its JS truthiness is false), so it never takes
effect. -/
theorem fetchBuildArgs_no_wait_keeps_expires
    (optsBatch optsMaxBytes optsExpires optsIdleHeartbeat : Nat)
    (delayHeartbeat maxBytesFeatureOk : Bool)
    (hmb : optsMaxBytes = 0 ∨ maxBytesFeatureOk = true)
    (he : 0 < optsExpires) :
    ∃ a, fetchBuildArgs optsBatch optsMaxBytes optsExpires optsIdleHeartbeat true
        delayHeartbeat maxBytesFeatureOk = Except.ok a ∧
      a.no_wait = true ∧ a.expires = some (nanos optsExpires) ∧ nanos optsExpires ≠ 0 ∧
      jsTruthyOptNat Option.none = false := by
  have hmb2 : ¬ (0 < optsMaxBytes ∧ maxBytesFeatureOk = false) := by
    rcases hmb with h | h
    · rintro ⟨hlt, -⟩
      omega
    · rintro ⟨-, hf⟩
      rw [h] at hf
      cases hf
  have hene : optsExpires ≠ 0 := by omega
  refine ⟨{ batch := if optsBatch = 0 then 1 else optsBatch, no_wait := true,
            max_bytes := if 0 < optsMaxBytes then some optsMaxBytes else Option.none,
            expires := some (nanos optsExpires),
            idle_heartbeat := if optsIdleHeartbeat ≠ 0 then
                some (nanos (if delayHeartbeat then optsIdleHeartbeat * 4
                  else optsIdleHeartbeat))
              else Option.none }, ?_, rfl, rfl, ?_, rfl⟩
  · simp [fetchBuildArgs, hmb2, hene, jsTruthyOptNat]
  · simp only [nanos]
    omega

/-- Claim C9, witness at expires 5 with no_wait set. -/
theorem fetchBuildArgs_no_wait_keeps_expires_witness :
    ∃ a, fetchBuildArgs 1 0 5 0 true false true = Except.ok a ∧
      a.no_wait = true ∧ a.expires = some (nanos 5) ∧ nanos 5 ≠ 0 ∧
      jsTruthyOptNat Option.none = false :=
  fetchBuildArgs_no_wait_keeps_expires 1 0 5 0 false true (Or.inl rfl) (by decide)

/-- When the ordered validation succeeds, the returned options keep the
ordered flag, the durable name and (for a non ordered consumer) the original
ack policy, while the ack policy of an ordered consumer is forced to None. -/
theorem processOrderedValidation_ok (freshInbox : String) (o o1 : ConsumerOptsModel)
    (h : processOrderedValidation freshInbox o = Except.ok o1) :
    o1.ordered = o.ordered ∧
    o1.ack_policy = (if o.ordered then AckPolicy.none else o.ack_policy) ∧
    o1.durable_name = o.durable_name ∧
    o1.deliver_subject = (if o.ordered then some freshInbox else o.deliver_subject) := by
  by_cases hord : o.ordered
  · unfold processOrderedValidation at h
    rw [if_pos hord] at h
    split_ifs at h
    injection h with h1
    subst h1
    simp [hord]
  · unfold processOrderedValidation at h
    rw [if_neg hord] at h
    injection h with h1
    subst h1
    simp [hord]

/-- When processing does not attach (the consumer info RPC came back 404 or
no durable name is set), the processed options keep the ordered flag, are
unattached, and the ack policy is the user policy with the ordered and
NotSet transformations applied. -/
theorem processOptionsModel_nonattach (subject freshInbox : String)
    (o : ConsumerOptsModel) (serverInfo : Option AttachedConsumerInfo)
    (hna : serverInfo = Option.none ∨ jsTruthyStr o.durable_name = false)
    (cso : ProcessedOpts)
    (h : processOptionsModel subject freshInbox o serverInfo = Except.ok cso) :
    cso.ordered = o.ordered ∧
    cso.attached = false ∧
    cso.ack_policy =
      (if (if o.ordered then AckPolicy.none else o.ack_policy) = AckPolicy.notSet then
        AckPolicy.all
      else if o.ordered then AckPolicy.none else o.ack_policy) := by
  unfold processOptionsModel at h
  cases hv : processOrderedValidation freshInbox o with
  | error e =>
    rw [hv] at h
    cases h
  | ok o1 =>
    obtain ⟨ho, ha, hd, -⟩ := processOrderedValidation_ok freshInbox o o1 hv
    rw [hv] at h
    simp only at h
    by_cases hdn : jsTruthyStr o1.durable_name = true
    · have hserver : serverInfo = Option.none := by
        rcases hna with hs | hs
        · exact hs
        · rw [hd] at hdn
          rw [hdn] at hs
          cases hs
      subst hserver
      by_cases hns : o1.ack_policy = AckPolicy.notSet
      · rw [if_pos hns] at h
        simp [hdn] at h
        rw [← h]
        simp [ho, ← ha, hns]
      · rw [if_neg hns] at h
        simp [hdn] at h
        rw [← h]
        simp [ho, ← ha, hns]
    · simp only [Bool.not_eq_true] at hdn
      by_cases hns : o1.ack_policy = AckPolicy.notSet
      · rw [if_pos hns] at h
        simp [hdn] at h
        rw [← h]
        simp [ho, ← ha, hns]
      · rw [if_neg hns] at h
        simp [hdn] at h
        rw [← h]
        simp [ho, ← ha, hns]

/-- Claim C10: when the consumer options leave ack_policy NotSet, the
subscription is not ordered, no deliver_subject is set and no existing
consumer is attached, option processing defaults the ack policy to All and
pullSubscribe then rejects with the explicit ack requirement; moreover, a
non attaching pullSubscribe can only pass its checks when the user policy
was Explicit. -/
theorem pullSubscribe_requires_explicit_ack (subject freshInbox : String)
    (o : ConsumerOptsModel) (serverInfo : Option AttachedConsumerInfo) :
    (o.ack_policy = AckPolicy.notSet → o.ordered = false →
      jsTruthyStr o.deliver_subject = false →
      (serverInfo = Option.none ∨ jsTruthyStr o.durable_name = false) →
      processOptionsModel subject freshInbox o serverInfo =
        Except.ok { ordered := false, ack_policy := AckPolicy.all,
                    deliver_subject := o.deliver_subject, attached := false } ∧
      pullSubscribeModel subject freshInbox o serverInfo =
        Except.error (Sum.inr PullSubscribeError.ackPolicyMustBeExplicit)) ∧
    ((serverInfo = Option.none ∨ jsTruthyStr o.durable_name = false) →
      ∀ r, pullSubscribeModel subject freshInbox o serverInfo = Except.ok r →
        o.ack_policy = AckPolicy.explicit) := by
  constructor
  · intro hns hord hds hna
    have hpov : processOrderedValidation freshInbox o = Except.ok o := by
      simp [processOrderedValidation, hord]
    have hpo : processOptionsModel subject freshInbox o serverInfo =
        Except.ok { ordered := false, ack_policy := AckPolicy.all,
                    deliver_subject := o.deliver_subject, attached := false } := by
      rcases hna with hs | hs
      · by_cases hdn : jsTruthyStr o.durable_name = true
        · simp [processOptionsModel, hpov, hns, hdn, hs, hord]
        · simp only [Bool.not_eq_true] at hdn
          simp [processOptionsModel, hpov, hns, hdn, hord]
      · simp [processOptionsModel, hpov, hns, hs, hord]
    refine ⟨hpo, ?_⟩
    simp [pullSubscribeModel, hpo, pullSubscribeCheck, hds]
  · intro hna r hok
    unfold pullSubscribeModel at hok
    cases hpo : processOptionsModel subject freshInbox o serverInfo with
    | error e =>
      rw [hpo] at hok
      cases hok
    | ok cso =>
      rw [hpo] at hok
      simp only at hok
      cases hpc : pullSubscribeCheck cso with
      | error e =>
        rw [hpc] at hok
        cases hok
      | ok u =>
        obtain ⟨ho, -, ha⟩ :=
          processOptionsModel_nonattach subject freshInbox o serverInfo hna cso hpo
        unfold pullSubscribeCheck at hpc
        split_ifs at hpc with c1 c2 c3
        by_cases hord : o.ordered
        · rw [ho] at c1
          exact absurd hord c1
        · rw [if_neg hord] at ha
          cases hackp : o.ack_policy with
          | notSet =>
            rw [hackp] at ha
            simp at ha
            exact absurd (Or.inr ha) c3
          | none =>
            rw [hackp] at ha
            simp at ha
            exact absurd (Or.inl ha) c3
          | all =>
            rw [hackp] at ha
            simp at ha
            exact absurd (Or.inr ha) c3
          | explicit => rfl

end NextNats
